import Mathlib

/-!
Verification of the sale-transaction processor of a small retail-store
backend (Node/Express + sqlite).  The definitions below are a shallow
embedding of the route handler POST /api/sales (the variant that validates
stock before committing) together with the tables it touches.

Modelling conventions:
* sqlite INTEGER and REAL columns are modelled as Int (all arithmetic the
  handler performs on them is addition, subtraction and multiplication,
  which is exact on the sample data and on any integer-valued input);
* a table is a list of rows; INSERT appends, UPDATE maps over the rows;
* the AUTOINCREMENT sale id is the nextSaleId field of the store state;
* each db.run / db.get statement is one atomic step; the handler issues
  them sequentially with no surrounding transaction, exactly as the
  source does (callback-chained independent statements).
-/

/-- A row of the products table (timestamps omitted; no claim reads them). -/
structure Product where
  id : Nat
  name : String
  category : String
  cost : Int
  price : Int
  stock : Int
  min_stock : Int
deriving Repr, DecidableEq

/-- One line of the submitted cart: the request body field items.
The client supplies product_id, product_name, quantity, price and cost;
the handler reads all five. -/
structure CartItem where
  product_id : Nat
  product_name : String
  quantity : Int
  price : Int
  cost : Int
deriving Repr, DecidableEq

/-- A row of the sales table (created_at omitted). -/
structure Sale where
  id : Nat
  total : Int
  profit : Int
deriving Repr, DecidableEq

/-- A row of the sale_items table (its own autoincrement id omitted;
rows are identified by position, which the claims never inspect). -/
structure SaleItem where
  sale_id : Nat
  product_id : Nat
  product_name : String
  quantity : Int
  price : Int
  cost : Int
deriving Repr, DecidableEq

/-- The database state the sales route touches. -/
structure Store where
  products : List Product
  sales : List Sale
  sale_items : List SaleItem
  nextSaleId : Nat
deriving Repr, DecidableEq

/-- The three rejection reasons of the handler, with the data its error
messages carry: No items in sale; Product NNN not found;
Insufficient stock for product NNN (the message names only the id). -/
inductive SaleError where
  | emptyCart : SaleError
  | productNotFound : Nat → SaleError
  | insufficientStock : Nat → SaleError
deriving Repr, DecidableEq

/-- The success payload res.json({ id, total, profit, ... }). -/
structure SaleOk where
  sale_id : Nat
  total : Int
  profit : Int
deriving Repr, DecidableEq

/-- db.get SELECT ... FROM products WHERE id = ? — the first row whose
primary key matches. -/
def getProduct (s : Store) (pid : Nat) : Option Product :=
  s.products.find? (fun p => p.id == pid)

/-- The checkPromises loop: for each item in order, look the product up
and reject if row.stock < item.quantity.  db.serialize queues the
db.get statements in item order, so Promise.all settles with the error
of the first failing line. -/
def checkItems (s : Store) : List CartItem → Except SaleError Unit
  | [] => Except.ok ()
  | item :: rest =>
    match getProduct s item.product_id with
    | none => Except.error (SaleError.productNotFound item.product_id)
    | some row =>
      if row.stock < item.quantity then
        Except.error (SaleError.insufficientStock item.product_id)
      else
        checkItems s rest

/-- total accumulated by items.forEach: total += item.price * item.quantity. -/
def cartTotal (items : List CartItem) : Int :=
  items.foldl (fun acc it => acc + it.price * it.quantity) 0

/-- totalCost accumulated by items.forEach: totalCost += item.cost * item.quantity. -/
def cartCostTotal (items : List CartItem) : Int :=
  items.foldl (fun acc it => acc + it.cost * it.quantity) 0

/-- The sale_items row inserted for a cart line. -/
def mkSaleItem (saleId : Nat) (it : CartItem) : SaleItem :=
  ⟨saleId, it.product_id, it.product_name, it.quantity, it.price, it.cost⟩

/-- UPDATE products SET stock = stock - ? WHERE id = ?. -/
def decStock (ps : List Product) (pid : Nat) (q : Int) : List Product :=
  ps.map (fun p => if p.id == pid then { p with stock := p.stock - q } else p)

/-- One iteration of the forEach in the commit phase: insert the
sale_items row, then decrement the product's stock. -/
def commitItem (saleId : Nat) (s : Store) (it : CartItem) : Store :=
  { s with
    sale_items := s.sale_items ++ [mkSaleItem saleId it]
    products := decStock s.products it.product_id it.quantity }

/-- The full forEach over the cart lines. -/
def commitAll (saleId : Nat) (s : Store) (items : List CartItem) : Store :=
  items.foldl (commitItem saleId) s

/-- The whole handler POST /api/sales: empty-cart guard, per-line
validation, totals from the client-supplied price/cost, INSERT into
sales, then per line an INSERT into sale_items and a stock UPDATE.
Returns the response and the database state after the call. -/
def processSale (s : Store) (items : List CartItem) :
    Except SaleError SaleOk × Store :=
  if items.isEmpty then
    (Except.error SaleError.emptyCart, s)
  else
    match checkItems s items with
    | Except.error e => (Except.error e, s)
    | Except.ok _ =>
      let total := cartTotal items
      let profit := total - cartCostTotal items
      let saleId := s.nextSaleId
      let s1 : Store :=
        { s with sales := s.sales ++ [⟨saleId, total, profit⟩]
                 nextSaleId := saleId + 1 }
      (Except.ok ⟨saleId, total, profit⟩, commitAll saleId s1 items)

-- Sample store used by concrete checks: the Rice 1kg product of the
-- sample data with stock 10, as in the spec scenarios.
def riceStore : Store :=
  { products := [⟨1, "Rice 1kg", "Groceries", 40, 50, 10, 5⟩]
    sales := []
    sale_items := []
    nextSaleId := 1 }

example :
    (processSale riceStore [⟨1, "Rice 1kg", 3, 50, 40⟩]).1 =
      Except.ok ⟨1, 150, 30⟩ := rfl

example :
    (processSale riceStore [⟨1, "Rice 1kg", 11, 50, 40⟩]).1 =
      Except.error (SaleError.insufficientStock 1) := rfl

example :
    (processSale riceStore [⟨999, "Ghost", 1, 5, 4⟩]).1 =
      Except.error (SaleError.productNotFound 999) := rfl

example : (processSale riceStore []).1 = Except.error SaleError.emptyCart := rfl

/-- Summed quantity requested for one product across all cart lines
(what the spec calls the cumulative requested quantity). -/
def cartQty : List CartItem → Nat → Int
  | [], _ => 0
  | it :: rest, pid =>
    (if it.product_id = pid then it.quantity else 0) + cartQty rest pid

/-- SELECT * FROM sale_items WHERE sale_id = ?. -/
def itemsOfSale (s : Store) (sid : Nat) : List SaleItem :=
  s.sale_items.filter (fun si => si.sale_id == sid)

/-- Sum of price times quantity over stored sale_items rows. -/
def itemsTotal (sis : List SaleItem) : Int :=
  (sis.map (fun si => si.price * si.quantity)).sum

/-- Sum of (price minus cost) times quantity over stored sale_items rows. -/
def itemsProfit (sis : List SaleItem) : Int :=
  (sis.map (fun si => (si.price - si.cost) * si.quantity)).sum

/-- No stored sale_items row already carries the sale id the next INSERT
will allocate (sqlite AUTOINCREMENT guarantees this for every state the
server itself produces). -/
def freshSaleId (s : Store) : Prop :=
  ∀ si ∈ s.sale_items, si.sale_id ≠ s.nextSaleId

/-- The individual db statements of the commit phase, in the order the
handler issues them.  There is no BEGIN/COMMIT around them: each one is
its own sqlite autocommit transaction. -/
inductive DbWrite where
  | insertSale : Sale → DbWrite
  | insertItem : SaleItem → DbWrite
  | updStock : Nat → Int → DbWrite
deriving Repr, DecidableEq

/-- Effect of one committed db statement on the database. -/
def applyWrite (s : Store) : DbWrite → Store
  | DbWrite.insertSale sa =>
    { s with sales := s.sales ++ [sa], nextSaleId := s.nextSaleId + 1 }
  | DbWrite.insertItem si => { s with sale_items := s.sale_items ++ [si] }
  | DbWrite.updStock pid q => { s with products := decStock s.products pid q }

/-- The statement sequence the commit phase issues for a validated cart:
the sales INSERT, then per line a sale_items INSERT and a stock UPDATE. -/
def commitWrites (s : Store) (items : List CartItem) : List DbWrite :=
  let total := cartTotal items
  let profit := total - cartCostTotal items
  DbWrite.insertSale ⟨s.nextSaleId, total, profit⟩ ::
    items.flatMap (fun it =>
      [DbWrite.insertItem (mkSaleItem s.nextSaleId it),
       DbWrite.updStock it.product_id it.quantity])

/-- The handler when the process dies after the first k statements of
the commit phase have been applied: since the statements are independent
autocommit operations, exactly those k statements are durable.  A failure
during validation leaves the state untouched (validation only reads). -/
def processSaleCrash (s : Store) (items : List CartItem) (k : Nat) : Store :=
  if items.isEmpty then s
  else
    match checkItems s items with
    | Except.error _ => s
    | Except.ok _ => ((commitWrites s items).take k).foldl applyWrite s

/-- Validation phase alone (the reads the handler performs before any
write: the empty-cart guard and the checkPromises loop). -/
def validateSale (s : Store) (items : List CartItem) : Except SaleError Unit :=
  if items.isEmpty then Except.error SaleError.emptyCart
  else checkItems s items

/-- Commit phase alone, applied to whatever the database holds when the
writes run. -/
def commitSale (s : Store) (items : List CartItem) : SaleOk × Store :=
  let total := cartTotal items
  let profit := total - cartCostTotal items
  let saleId := s.nextSaleId
  let s1 : Store :=
    { s with sales := s.sales ++ [⟨saleId, total, profit⟩]
             nextSaleId := saleId + 1 }
  (⟨saleId, total, profit⟩, commitAll saleId s1 items)

/-- Two requests handled strictly one after the other. -/
def twoSalesSerial (s : Store) (c1 c2 : List CartItem) :
    Except SaleError SaleOk × Except SaleError SaleOk × Store :=
  let r1 := processSale s c1
  let r2 := processSale r1.2 c2
  (r1.1, r2.1, r2.2)

/-- Two concurrent requests under the event-loop interleaving in which
both validation phases run before either commit phase: each db statement
is atomic, but nothing in the handler stops the second request's reads
from being served between the first request's reads and writes.  Requests
whose validation failed answer their error and write nothing; requests
whose validation passed run their commit writes in order. -/
def twoSalesInterleaved (s : Store) (c1 c2 : List CartItem) :
    Except SaleError SaleOk × Except SaleError SaleOk × Store :=
  match validateSale s c1, validateSale s c2 with
  | Except.error e1, Except.error e2 => (Except.error e1, Except.error e2, s)
  | Except.error e1, Except.ok _ =>
    let r2 := commitSale s c2
    (Except.error e1, Except.ok r2.1, r2.2)
  | Except.ok _, Except.error e2 =>
    let r1 := commitSale s c1
    (Except.ok r1.1, Except.error e2, r1.2)
  | Except.ok _, Except.ok _ =>
    let r1 := commitSale s c1
    let r2 := commitSale r1.2 c2
    (Except.ok r1.1, Except.ok r2.1, r2.2)

/-- The error component of a response, if any. -/
def errPart : Except SaleError SaleOk → Option SaleError
  | Except.error e => some e
  | Except.ok _ => none

/-- Whether a response reports a committed sale. -/
def isOkResult : Except SaleError SaleOk → Bool
  | Except.ok _ => true
  | Except.error _ => false

/-! ### Helper lemmas -/

theorem foldl_add_extract {α : Type} (f : α → Int) (l : List α) (a : Int) :
    l.foldl (fun acc x => acc + f x) a = a + (l.map f).sum := by
  induction l generalizing a with
  | nil => simp
  | cons x xs ih => simp [ih, add_assoc]

theorem cartTotal_eq_sum (items : List CartItem) :
    cartTotal items = (items.map (fun it => it.price * it.quantity)).sum := by
  simpa using foldl_add_extract (fun it => it.price * it.quantity) items 0

theorem cartCostTotal_eq_sum (items : List CartItem) :
    cartCostTotal items = (items.map (fun it => it.cost * it.quantity)).sum := by
  simpa using foldl_add_extract (fun it => it.cost * it.quantity) items 0

theorem sum_map_sub {α : Type} (f g : α → Int) (l : List α) :
    (l.map (fun x => f x - g x)).sum = (l.map f).sum - (l.map g).sum := by
  induction l with
  | nil => simp
  | cons x xs ih =>
    simp only [List.map_cons, List.sum_cons, ih]
    ring

theorem commitAll_cons (sid : Nat) (s : Store) (it : CartItem)
    (rest : List CartItem) :
    commitAll sid s (it :: rest) = commitAll sid (commitItem sid s it) rest :=
  rfl

theorem commitAll_sales (sid : Nat) (s : Store) (items : List CartItem) :
    (commitAll sid s items).sales = s.sales := by
  induction items generalizing s with
  | nil => rfl
  | cons it rest ih => exact (ih (commitItem sid s it)).trans rfl

theorem commitAll_nextSaleId (sid : Nat) (s : Store) (items : List CartItem) :
    (commitAll sid s items).nextSaleId = s.nextSaleId := by
  induction items generalizing s with
  | nil => rfl
  | cons it rest ih => exact (ih (commitItem sid s it)).trans rfl

theorem commitAll_sale_items (sid : Nat) (s : Store) (items : List CartItem) :
    (commitAll sid s items).sale_items =
      s.sale_items ++ items.map (mkSaleItem sid) := by
  induction items generalizing s with
  | nil => simp [commitAll]
  | cons it rest ih =>
    rw [commitAll_cons, ih]
    simp [commitItem]

theorem commitAll_products (sid : Nat) (s : Store) (items : List CartItem) :
    (commitAll sid s items).products =
      s.products.map (fun p => { p with stock := p.stock - cartQty items p.id }) := by
  induction items generalizing s with
  | nil =>
    show s.products = s.products.map _
    have : ∀ p : Product, ({ p with stock := p.stock - cartQty [] p.id }) = p := by
      intro p
      simp [cartQty]
    rw [List.map_congr_left fun p _ => this p]
    simp
  | cons it rest ih =>
    rw [commitAll_cons, ih]
    show (decStock s.products it.product_id it.quantity).map _ = _
    rw [decStock, List.map_map]
    refine List.map_congr_left ?_
    intro p _
    by_cases h : p.id = it.product_id
    · simp only [Function.comp, h, beq_self_eq_true, if_true, cartQty, if_pos rfl]
      simp [sub_sub]
    · have hb : (p.id == it.product_id) = false := beq_eq_false_iff_ne.mpr h
      simp only [Function.comp, hb, Bool.false_eq_true, if_false, cartQty]
      have : ¬ it.product_id = p.id := fun hh => h hh.symm
      simp [this]

theorem cartQty_eq_zero (items : List CartItem) (pid : Nat)
    (h : ∀ it ∈ items, it.product_id ≠ pid) : cartQty items pid = 0 := by
  induction items with
  | nil => rfl
  | cons it rest ih =>
    have hne : it.product_id ≠ pid := h it (List.mem_cons_self it rest)
    simp only [cartQty, if_neg hne, zero_add]
    exact ih fun x hx => h x (List.mem_cons_of_mem it hx)

theorem cartQty_of_nodup (items : List CartItem)
    (hnd : (items.map CartItem.product_id).Nodup) :
    ∀ it ∈ items, cartQty items it.product_id = it.quantity := by
  induction items with
  | nil => intro it h; cases h
  | cons a as ih =>
    have hna : a.product_id ∉ as.map CartItem.product_id :=
      (List.nodup_cons.mp hnd).1
    intro it hit
    rcases List.mem_cons.mp hit with rfl | hmem
    · have hz : cartQty as it.product_id = 0 := by
        refine cartQty_eq_zero as it.product_id fun x hx heq => hna ?_
        exact heq ▸ List.mem_map_of_mem CartItem.product_id hx
      simp [cartQty, hz]
    · have hne : a.product_id ≠ it.product_id := by
        intro heq
        exact hna (heq ▸ List.mem_map_of_mem CartItem.product_id hmem)
      simp only [cartQty, if_neg hne, zero_add]
      exact ih (List.nodup_cons.mp hnd).2 it hmem

theorem cartQty_congr (c1 c2 : List CartItem) (pid : Nat)
    (h : c1.map (fun it => (it.product_id, it.quantity)) =
         c2.map (fun it => (it.product_id, it.quantity))) :
    cartQty c1 pid = cartQty c2 pid := by
  induction c1 generalizing c2 with
  | nil => cases c2 with
    | nil => rfl
    | cons b bs => simp at h
  | cons a as ih =>
    cases c2 with
    | nil => simp at h
    | cons b bs =>
      simp only [List.map_cons, List.cons.injEq, Prod.mk.injEq] at h
      obtain ⟨⟨hpid, hq⟩, ht⟩ := h
      simp only [cartQty, hpid, hq, ih bs ht]

/-- The primary-key lookup finds a given row when ids are unique. -/
theorem find_id_of_nodup (ps : List Product) (p : Product)
    (h : (ps.map Product.id).Nodup) (hp : p ∈ ps) :
    ps.find? (fun q => q.id == p.id) = some p := by
  induction ps with
  | nil => cases hp
  | cons a as ih =>
    rcases List.mem_cons.mp hp with rfl | hmem
    · simp [List.find?]
    · have hne : a.id ≠ p.id := by
        intro heq
        exact (List.nodup_cons.mp h).1
          (heq ▸ List.mem_map_of_mem Product.id hmem)
      rw [List.find?_cons_of_neg _ (by simpa using hne)]
      exact ih (List.nodup_cons.mp h).2 hmem

theorem getProduct_of_mem (s : Store) (p : Product)
    (hids : (s.products.map Product.id).Nodup) (hp : p ∈ s.products) :
    getProduct s p.id = some p :=
  find_id_of_nodup s.products p hids hp

/-- Looking a product up after a stock UPDATE: the UPDATE preserves ids,
so the lookup finds the same row with the stock field adjusted. -/
theorem getProduct_decStock (ps : List Product)
    (pid pid2 : Nat) (q : Int) :
    List.find? (fun p => p.id == pid) (decStock ps pid2 q) =
      (List.find? (fun p => p.id == pid) ps).map
        (fun p => if p.id == pid2 then { p with stock := p.stock - q } else p) := by
  rw [decStock, List.find?_map]
  have hfun :
      ((fun p : Product => p.id == pid) ∘ fun p : Product =>
        if p.id == pid2 then { p with stock := p.stock - q } else p) =
      fun p : Product => p.id == pid := by
    funext p
    by_cases h : p.id == pid2 <;> simp [Function.comp, h]
  rw [hfun]

theorem checkItems_ok_iff (s : Store) (items : List CartItem) :
    checkItems s items = Except.ok () ↔
      ∀ it ∈ items, ∃ row, getProduct s it.product_id = some row ∧
        ¬ row.stock < it.quantity := by
  induction items with
  | nil => simp [checkItems]
  | cons it rest ih =>
    cases hg : getProduct s it.product_id with
    | none =>
      simp only [checkItems, hg]
      constructor
      · intro h; exact absurd h (by simp)
      · intro h
        obtain ⟨row, hrow, _⟩ := h it (List.mem_cons_self it rest)
        rw [hg] at hrow
        cases hrow
    | some row =>
      simp only [checkItems, hg]
      by_cases hlt : row.stock < it.quantity
      · rw [if_pos hlt]
        constructor
        · intro h; exact absurd h (by simp)
        · intro h
          obtain ⟨row2, hrow2, hn⟩ := h it (List.mem_cons_self it rest)
          rw [hg] at hrow2
          injection hrow2 with he
          subst he
          exact absurd hlt hn
      · rw [if_neg hlt, ih]
        constructor
        · intro h x hx
          rcases List.mem_cons.mp hx with rfl | hx2
          · exact ⟨row, hg, hlt⟩
          · exact h x hx2
        · intro h x hx
          exact h x (List.mem_cons_of_mem it hx)

theorem checkItems_insufficient_iff (s : Store) (items : List CartItem)
    (hex : ∀ it ∈ items, (getProduct s it.product_id).isSome = true) :
    (∃ pid, checkItems s items =
      Except.error (SaleError.insufficientStock pid)) ↔
      ∃ it ∈ items, ∃ row, getProduct s it.product_id = some row ∧
        row.stock < it.quantity := by
  induction items with
  | nil => simp [checkItems]
  | cons it rest ih =>
    obtain ⟨row, hrow⟩ :=
      Option.isSome_iff_exists.mp (hex it (List.mem_cons_self it rest))
    simp only [checkItems, hrow]
    by_cases hlt : row.stock < it.quantity
    · rw [if_pos hlt]
      constructor
      · intro _
        exact ⟨it, List.mem_cons_self it rest, row, hrow, hlt⟩
      · intro _
        exact ⟨it.product_id, rfl⟩
    · rw [if_neg hlt, ih fun x hx => hex x (List.mem_cons_of_mem it hx)]
      constructor
      · rintro ⟨x, hx, hrest⟩
        exact ⟨x, List.mem_cons_of_mem it hx, hrest⟩
      · rintro ⟨x, hx, row2, hrow2, hlt2⟩
        rcases List.mem_cons.mp hx with rfl | hx2
        · rw [hrow] at hrow2
          injection hrow2 with he
          subst he
          exact absurd hlt2 hlt
        · exact ⟨x, hx2, row2, hrow2, hlt2⟩

theorem checkItems_error_of_missing (s : Store) (items : List CartItem)
    (h : ∃ it ∈ items, getProduct s it.product_id = none) :
    ∃ e, checkItems s items = Except.error e := by
  induction items with
  | nil => simp at h
  | cons it rest ih =>
    cases hg : getProduct s it.product_id with
    | none =>
      exact ⟨SaleError.productNotFound it.product_id, by simp [checkItems, hg]⟩
    | some row =>
      simp only [checkItems, hg]
      by_cases hlt : row.stock < it.quantity
      · rw [if_pos hlt]
        exact ⟨SaleError.insufficientStock it.product_id, rfl⟩
      · rw [if_neg hlt]
        apply ih
        rcases h with ⟨x, hx, hxe⟩
        rcases List.mem_cons.mp hx with rfl | hx2
        · rw [hg] at hxe; cases hxe
        · exact ⟨x, hx2, hxe⟩

theorem checkItems_notFound (s : Store) (items : List CartItem)
    (hmiss : ∃ it ∈ items, getProduct s it.product_id = none)
    (hst : ∀ it ∈ items, ∀ row, getProduct s it.product_id = some row →
      ¬ row.stock < it.quantity) :
    ∃ pid, getProduct s pid = none ∧
      checkItems s items = Except.error (SaleError.productNotFound pid) := by
  induction items with
  | nil => simp at hmiss
  | cons it rest ih =>
    cases hg : getProduct s it.product_id with
    | none => exact ⟨it.product_id, hg, by simp [checkItems, hg]⟩
    | some row =>
      simp only [checkItems, hg]
      rw [if_neg (hst it (List.mem_cons_self it rest) row hg)]
      apply ih
      · rcases hmiss with ⟨x, hx, hxe⟩
        rcases List.mem_cons.mp hx with rfl | hx2
        · rw [hg] at hxe; cases hxe
        · exact ⟨x, hx2, hxe⟩
      · intro x hx row2 hrow2
        exact hst x (List.mem_cons_of_mem it hx) row2 hrow2

theorem checkItems_congr (s : Store) (c1 c2 : List CartItem)
    (h : c1.map (fun it => (it.product_id, it.quantity)) =
         c2.map (fun it => (it.product_id, it.quantity))) :
    checkItems s c1 = checkItems s c2 := by
  induction c1 generalizing c2 with
  | nil =>
    cases c2 with
    | nil => rfl
    | cons b bs => simp at h
  | cons a as ih =>
    cases c2 with
    | nil => simp at h
    | cons b bs =>
      simp only [List.map_cons, List.cons.injEq, Prod.mk.injEq] at h
      obtain ⟨⟨hpid, hq⟩, ht⟩ := h
      simp only [checkItems, hpid, hq]
      cases getProduct s b.product_id with
      | none => rfl
      | some row =>
        by_cases hlt : row.stock < b.quantity <;> simp [hlt, ih bs ht]

theorem processSale_empty (s : Store) :
    processSale s [] = (Except.error SaleError.emptyCart, s) := rfl

theorem isEmpty_false_of_ne {items : List CartItem} (hne : items ≠ []) :
    items.isEmpty = false := by
  cases items with
  | nil => exact absurd rfl hne
  | cons a as => rfl

theorem processSale_of_valid (s : Store) (items : List CartItem)
    (hne : items ≠ []) (hok : checkItems s items = Except.ok ()) :
    processSale s items =
      (Except.ok ⟨s.nextSaleId, cartTotal items,
        cartTotal items - cartCostTotal items⟩,
       commitAll s.nextSaleId
        { s with sales := s.sales ++ [⟨s.nextSaleId, cartTotal items,
            cartTotal items - cartCostTotal items⟩]
                 nextSaleId := s.nextSaleId + 1 } items) := by
  simp [processSale, isEmpty_false_of_ne hne, hok]

theorem processSale_of_error (s : Store) (items : List CartItem)
    (e : SaleError) (hne : items ≠ [])
    (herr : checkItems s items = Except.error e) :
    processSale s items = (Except.error e, s) := by
  simp [processSale, isEmpty_false_of_ne hne, herr]

theorem processSale_ok_inv (s : Store) (items : List CartItem) (r : SaleOk)
    (s2 : Store) (h : processSale s items = (Except.ok r, s2)) :
    items ≠ [] ∧
    checkItems s items = Except.ok () ∧
    r = ⟨s.nextSaleId, cartTotal items,
      cartTotal items - cartCostTotal items⟩ ∧
    s2 = commitAll s.nextSaleId
      { s with sales := s.sales ++ [⟨s.nextSaleId, cartTotal items,
          cartTotal items - cartCostTotal items⟩]
               nextSaleId := s.nextSaleId + 1 } items := by
  by_cases hie : items = []
  · subst hie
    rw [processSale_empty] at h
    simp at h
  · cases hc : checkItems s items with
    | error e =>
      rw [processSale_of_error s items e hie hc] at h
      simp at h
    | ok u =>
      cases u
      rw [processSale_of_valid s items hie hc] at h
      simp only [Prod.mk.injEq] at h
      obtain ⟨h1, h2⟩ := h
      injection h1 with h1
      exact ⟨hie, rfl, h1.symm, h2.symm⟩

theorem processSale_error_store (s : Store) (items : List CartItem)
    (e : SaleError) (h : (processSale s items).1 = Except.error e) :
    (processSale s items).2 = s := by
  by_cases hie : items = []
  · subst hie; rfl
  · cases hc : checkItems s items with
    | error e2 => rw [processSale_of_error s items e2 hie hc]
    | ok u =>
      cases u
      rw [processSale_of_valid s items hie hc] at h
      simp at h

theorem processSale_fst_error_iff (s : Store) (items : List CartItem)
    (hne : items ≠ []) (e : SaleError) :
    (processSale s items).1 = Except.error e ↔
      checkItems s items = Except.error e := by
  cases hc : checkItems s items with
  | error e2 =>
    rw [processSale_of_error s items e2 hne hc]
    simp
  | ok u =>
    cases u
    rw [processSale_of_valid s items hne hc]
    simp

/-- The sale_items rows of the freshly inserted sale are exactly the
rows the commit phase inserted, when the allocated id is fresh. -/
theorem itemsOfSale_after_commit (s : Store) (items : List CartItem)
    (hfresh : freshSaleId s) :
    itemsOfSale (commitAll s.nextSaleId
      { s with sales := s.sales ++ [⟨s.nextSaleId, cartTotal items,
          cartTotal items - cartCostTotal items⟩]
               nextSaleId := s.nextSaleId + 1 } items) s.nextSaleId =
      items.map (mkSaleItem s.nextSaleId) := by
  rw [itemsOfSale, commitAll_sale_items]
  show (s.sale_items ++ items.map (mkSaleItem s.nextSaleId)).filter _ = _
  rw [List.filter_append]
  have h1 : s.sale_items.filter (fun si => si.sale_id == s.nextSaleId) = [] := by
    rw [List.filter_eq_nil_iff]
    intro si hsi
    simpa using hfresh si hsi
  have h2 : (items.map (mkSaleItem s.nextSaleId)).filter
      (fun si => si.sale_id == s.nextSaleId) =
      items.map (mkSaleItem s.nextSaleId) := by
    rw [List.filter_eq_self]
    intro si hsi
    obtain ⟨it, _, rfl⟩ := List.mem_map.mp hsi
    simp [mkSaleItem]
  rw [h1, h2, List.nil_append]

theorem itemsTotal_map_mk (sid : Nat) (items : List CartItem) :
    itemsTotal (items.map (mkSaleItem sid)) = cartTotal items := by
  rw [itemsTotal, cartTotal_eq_sum, List.map_map]
  rfl

theorem itemsProfit_map_mk (sid : Nat) (items : List CartItem) :
    itemsProfit (items.map (mkSaleItem sid)) =
      cartTotal items - cartCostTotal items := by
  rw [itemsProfit, List.map_map, cartTotal_eq_sum, cartCostTotal_eq_sum,
    ← sum_map_sub]
  apply congrArg List.sum
  apply List.map_congr_left
  intro it _
  show (it.price - it.cost) * it.quantity =
    it.price * it.quantity - it.cost * it.quantity
  ring

/-- Looking up the product of a one-line cart after the commit: the line
was inserted and the product stock decremented by its quantity. -/
theorem getProduct_processSale_single (s : Store) (it : CartItem)
    (row : Product) (hrow : getProduct s it.product_id = some row)
    (hok : checkItems s [it] = Except.ok ()) :
    getProduct (processSale s [it]).2 it.product_id =
      some { row with stock := row.stock - it.quantity } := by
  have hne : ([it] : List CartItem) ≠ [] := by simp
  rw [processSale_of_valid s [it] hne hok]
  show List.find? (fun p => p.id == it.product_id)
    (decStock s.products it.product_id it.quantity) = _
  rw [getProduct_decStock]
  rw [getProduct] at hrow
  rw [hrow]
  have hbe : (row.id == it.product_id) = true := by
    have hpred := List.find?_some hrow
    simpa using hpred
  simp [hbe]
  exact fun h => absurd (by simpa using hbe) h

-- A store with a single product holding its last unit, for the
-- concurrency scenario of the spec.
def lastUnitStore : Store :=
  { products := [⟨1, "Milk 1L", "Dairy", 45, 60, 1, 10⟩]
    sales := []
    sale_items := []
    nextSaleId := 1 }

-- A store whose single product is out of stock, for the error-ordering
-- scenario.
def zeroStockStore : Store :=
  { products := [⟨1, "Rice 1kg", "Groceries", 40, 50, 0, 5⟩]
    sales := []
    sale_items := []
    nextSaleId := 1 }

/-! ### Claims -/

/-- C1 (amended): the availability check of the handler is per line, not
cumulative: for a non-empty cart all of whose products exist, the handler
fails with InsufficientStock (carrying only the product id) if and only
if some single line's quantity exceeds that product's current stock;
quantities of duplicate lines for one product are never summed. -/
theorem C1_per_line_availability (s : Store) (items : List CartItem)
    (hne : items ≠ [])
    (hex : ∀ it ∈ items, (getProduct s it.product_id).isSome = true) :
    (∃ pid, (processSale s items).1 =
      Except.error (SaleError.insufficientStock pid)) ↔
      ∃ it ∈ items, ∃ row, getProduct s it.product_id = some row ∧
        row.stock < it.quantity := by
  rw [← checkItems_insufficient_iff s items hex]
  constructor
  · rintro ⟨pid, hp⟩
    exact ⟨pid, (processSale_fst_error_iff s items hne _).mp hp⟩
  · rintro ⟨pid, hp⟩
    exact ⟨pid, (processSale_fst_error_iff s items hne _).mpr hp⟩

/-- C1 counterexample: a cart with two lines of 6 units each for a
product with stock 10 (cumulative request 12 > 10) is accepted and
committed, while the claim requires it to be rejected. -/
theorem C1_counterexample :
    cartQty [⟨1, "Rice 1kg", 6, 50, 40⟩, ⟨1, "Rice 1kg", 6, 50, 40⟩] 1 = 12 ∧
    getProduct riceStore 1 = some ⟨1, "Rice 1kg", "Groceries", 40, 50, 10, 5⟩ ∧
    (processSale riceStore
      [⟨1, "Rice 1kg", 6, 50, 40⟩, ⟨1, "Rice 1kg", 6, 50, 40⟩]).1 =
      Except.ok ⟨1, 600, 120⟩ :=
  ⟨rfl, rfl, rfl⟩

/-- C1 witness: the amended theorem applied to the spec scenario of a
single line requesting 11 units of a product with stock 10. -/
theorem C1_witness :
    (∃ pid, (processSale riceStore [⟨1, "Rice 1kg", 11, 50, 40⟩]).1 =
      Except.error (SaleError.insufficientStock pid)) ↔
      ∃ it ∈ ([⟨1, "Rice 1kg", 11, 50, 40⟩] : List CartItem), ∃ row,
        getProduct riceStore it.product_id = some row ∧
        row.stock < it.quantity :=
  C1_per_line_availability riceStore [⟨1, "Rice 1kg", 11, 50, 40⟩]
    (by decide) (by decide)

/-- C2 (amended): the stock ≥ 0 invariant is preserved only for carts in
which each product appears in at most one line: under unique product ids
in the store and in the cart, a sale leaves every stock non-negative.
With duplicate lines for one product the handler can drive stock
negative (see the counterexample). -/
theorem C2_stock_nonneg_preserved (s : Store) (items : List CartItem)
    (hids : (s.products.map Product.id).Nodup)
    (hcart : (items.map CartItem.product_id).Nodup)
    (hpos : ∀ p ∈ s.products, 0 ≤ p.stock) :
    ∀ p ∈ (processSale s items).2.products, 0 ≤ p.stock := by
  rcases hps : processSale s items with ⟨res, s2⟩
  show ∀ p ∈ s2.products, 0 ≤ p.stock
  cases res with
  | error e =>
    have h1 : (processSale s items).1 = Except.error e := by rw [hps]
    have h2 := processSale_error_store s items e h1
    rw [hps] at h2
    have hs2 : s2 = s := h2
    rw [hs2]
    exact hpos
  | ok r =>
    obtain ⟨hne, hok, hr, hs2⟩ := processSale_ok_inv s items r s2 hps
    subst hs2
    rw [commitAll_products]
    intro p hp
    obtain ⟨q, hq, rfl⟩ := List.mem_map.mp hp
    show 0 ≤ q.stock - cartQty items q.id
    have hqs : q ∈ s.products := hq
    by_cases href : ∃ it ∈ items, it.product_id = q.id
    · obtain ⟨it, hit, hpid⟩ := href
      have hqty : cartQty items q.id = it.quantity := by
        rw [← hpid]
        exact cartQty_of_nodup items hcart it hit
      rw [hqty]
      obtain ⟨row, hrow, hnl⟩ := (checkItems_ok_iff s items).mp hok it hit
      have hgq : getProduct s it.product_id = some q := by
        rw [hpid]
        exact getProduct_of_mem s q hids hqs
      rw [hgq] at hrow
      injection hrow with he
      subst he
      exact sub_nonneg.mpr (not_lt.mp hnl)
    · rw [cartQty_eq_zero items q.id fun x hx hxe => href ⟨x, hx, hxe⟩,
        sub_zero]
      exact hpos q hqs

/-- C2 counterexample: starting from all stocks non-negative (stock 10),
a sale with two 6-unit lines for the same product commits and leaves
that product's stock at −2, violating the invariant the claim states
for every cart. -/
theorem C2_counterexample :
    riceStore.products = [⟨1, "Rice 1kg", "Groceries", 40, 50, 10, 5⟩] ∧
    (processSale riceStore
      [⟨1, "Rice 1kg", 6, 50, 40⟩, ⟨1, "Rice 1kg", 6, 50, 40⟩]).2.products =
      [⟨1, "Rice 1kg", "Groceries", 40, 50, -2, 5⟩] ∧
    (-2 : Int) < 0 :=
  ⟨rfl, rfl, by decide⟩

/-- C2 witness: the amended theorem applied to the spec scenario of a
3-unit sale from stock 10, evaluated at the resulting stock-7 product. -/
theorem C2_witness :
    (0 : Int) ≤ (⟨1, "Rice 1kg", "Groceries", 40, 50, 7, 5⟩ : Product).stock :=
  C2_stock_nonneg_preserved riceStore [⟨1, "Rice 1kg", 3, 50, 40⟩]
    (by decide) (by decide) (by decide)
    ⟨1, "Rice 1kg", "Groceries", 40, 50, 7, 5⟩ (by decide)

/-- C7: every cart that fails validation gets a client error and the
database is exactly as it was before the call: no products, sales or
sale_items change, because the handler performs no write before the
validation promise resolves. -/
theorem C7_validation_failure_no_mutation (s : Store) (items : List CartItem)
    (e : SaleError) (h : (processSale s items).1 = Except.error e) :
    (processSale s items).2 = s :=
  processSale_error_store s items e h

/-- C7 witness: the empty cart is rejected and the store is untouched. -/
theorem C7_witness :
    (processSale riceStore []).1 = Except.error SaleError.emptyCart ∧
    (processSale riceStore []).2 = riceStore :=
  ⟨rfl, C7_validation_failure_no_mutation riceStore [] SaleError.emptyCart rfl⟩

/-- C8: a successful commit decrements each product's stock by exactly
the summed quantity requested for it across all cart lines, leaves every
other product field and every unreferenced product unchanged (the map
below touches only the stock field, by cartQty items p.id, which is 0
for unreferenced products), and only appends to the sales and sale_items
tables, preserving all previously recorded rows. -/
theorem C8_commit_frame (s : Store) (items : List CartItem) (r : SaleOk)
    (s2 : Store) (h : processSale s items = (Except.ok r, s2)) :
    s2.products = s.products.map
      (fun p => { p with stock := p.stock - cartQty items p.id }) ∧
    s2.sales = s.sales ++ [⟨r.sale_id, r.total, r.profit⟩] ∧
    s2.sale_items = s.sale_items ++ items.map (mkSaleItem r.sale_id) := by
  obtain ⟨hne, hok, hr, hs2⟩ := processSale_ok_inv s items r s2 h
  subst hr
  subst hs2
  refine ⟨?_, ?_, ?_⟩
  · rw [commitAll_products]
  · rw [commitAll_sales]
  · rw [commitAll_sale_items]

/-- C8 witness: the frame property applied to the spec scenario of a
3-unit sale from stock 10. -/
theorem C8_witness :
    (processSale riceStore [⟨1, "Rice 1kg", 3, 50, 40⟩]).2.products =
      riceStore.products.map (fun p =>
        { p with stock := p.stock - cartQty [⟨1, "Rice 1kg", 3, 50, 40⟩] p.id }) ∧
    (processSale riceStore [⟨1, "Rice 1kg", 3, 50, 40⟩]).2.sales =
      riceStore.sales ++ [⟨1, 150, 30⟩] ∧
    (processSale riceStore [⟨1, "Rice 1kg", 3, 50, 40⟩]).2.sale_items =
      riceStore.sale_items ++
        [⟨1, "Rice 1kg", 3, 50, 40⟩].map (mkSaleItem 1) :=
  C8_commit_frame riceStore [⟨1, "Rice 1kg", 3, 50, 40⟩]
    (⟨1, 150, 30⟩ : SaleOk)
    (processSale riceStore [⟨1, "Rice 1kg", 3, 50, 40⟩]).2 rfl

/-- C10: a cart line with non-positive quantity for an existing product
with non-negative stock passes the availability check (stock < quantity
is impossible), the sale commits, the product's stock is decremented by
that quantity — increasing it when the quantity is negative — and the
line contributes price * quantity (≤ 0) to the total and
price * quantity − cost * quantity to the profit. -/
theorem C10_nonpositive_quantity (s : Store) (it : CartItem) (row : Product)
    (hrow : getProduct s it.product_id = some row)
    (hstock : 0 ≤ row.stock) (hq : it.quantity ≤ 0) :
    checkItems s [it] = Except.ok () ∧
    (processSale s [it]).1 = Except.ok ⟨s.nextSaleId,
      it.price * it.quantity,
      it.price * it.quantity - it.cost * it.quantity⟩ ∧
    getProduct (processSale s [it]).2 it.product_id =
      some { row with stock := row.stock - it.quantity } ∧
    row.stock ≤ row.stock - it.quantity := by
  have hnl : ¬ row.stock < it.quantity := not_lt.mpr (le_trans hq hstock)
  have hchk : checkItems s [it] = Except.ok () := by
    simp [checkItems, hrow, hnl]
  have hne : ([it] : List CartItem) ≠ [] := by simp
  refine ⟨hchk, ?_, getProduct_processSale_single s it row hrow hchk, ?_⟩
  · rw [processSale_of_valid s [it] hne hchk]
    show Except.ok (⟨s.nextSaleId, cartTotal [it],
      cartTotal [it] - cartCostTotal [it]⟩ : SaleOk) = _
    have ht : cartTotal [it] = it.price * it.quantity := by
      simp [cartTotal]
    have hc : cartCostTotal [it] = it.cost * it.quantity := by
      simp [cartCostTotal]
    rw [ht, hc]
  · linarith

/-- C10 witness: a line of quantity −3 for the stock-10 product passes
validation, commits with total 50·(−3) and the stock rises to 13. -/
theorem C10_witness :
    checkItems riceStore [⟨1, "Rice 1kg", -3, 50, 40⟩] = Except.ok () ∧
    (processSale riceStore [⟨1, "Rice 1kg", -3, 50, 40⟩]).1 =
      Except.ok ⟨1, 50 * (-3), 50 * (-3) - 40 * (-3)⟩ ∧
    getProduct (processSale riceStore [⟨1, "Rice 1kg", -3, 50, 40⟩]).2 1 =
      some ⟨1, "Rice 1kg", "Groceries", 40, 50, 10 - (-3), 5⟩ ∧
    (10 : Int) ≤ 10 - (-3) :=
  C10_nonpositive_quantity riceStore ⟨1, "Rice 1kg", -3, 50, 40⟩
    ⟨1, "Rice 1kg", "Groceries", 40, 50, 10, 5⟩ rfl (by decide) (by decide)

/-- Faithfulness of the crash model: a single commit step applies the
two statements of one forEach iteration. -/
theorem foldl_applyWrite_pairs (sid : Nat) (s : Store)
    (items : List CartItem) :
    ((items.flatMap (fun it =>
      [DbWrite.insertItem (mkSaleItem sid it),
       DbWrite.updStock it.product_id it.quantity])).foldl applyWrite s) =
    commitAll sid s items := by
  induction items generalizing s with
  | nil => rfl
  | cons it rest ih =>
    rw [List.flatMap_cons, List.foldl_append]
    exact ih (commitItem sid s it)

/-- Faithfulness of the crash model: running all commit statements to
completion yields exactly the state the handler leaves behind. -/
theorem processSaleCrash_complete (s : Store) (items : List CartItem) :
    processSaleCrash s items (commitWrites s items).length =
      (processSale s items).2 := by
  by_cases hie : items = []
  · subst hie
    rfl
  · cases hc : checkItems s items with
    | error e =>
      rw [processSale_of_error s items e hie hc]
      simp [processSaleCrash, isEmpty_false_of_ne hie, hc]
    | ok u =>
      cases u
      rw [processSale_of_valid s items hie hc]
      simp only [processSaleCrash, isEmpty_false_of_ne hie, hc,
        List.take_length]
      simp only [commitWrites, List.foldl_cons]
      exact foldl_applyWrite_pairs s.nextSaleId _ items

/-- C3 (amended): the commit phase has no transaction and no rollback:
each statement is individually durable, so a failure right after the
sales INSERT (one applied statement) leaves the Sale header visible
while products and sale_items are unchanged — the partial write is
observable, instead of the all-or-nothing behavior the claim states. -/
theorem C3_no_rollback (s : Store) (items : List CartItem)
    (hne : items ≠ []) (hok : checkItems s items = Except.ok ()) :
    (processSaleCrash s items 1).sales =
      s.sales ++ [⟨s.nextSaleId, cartTotal items,
        cartTotal items - cartCostTotal items⟩] ∧
    (processSaleCrash s items 1).products = s.products ∧
    (processSaleCrash s items 1).sale_items = s.sale_items := by
  simp only [processSaleCrash, isEmpty_false_of_ne hne, hok]
  simp [commitWrites, applyWrite, hne]

/-- C3 counterexample: a failure after the first commit statement of the
spec's 3-unit sale scenario leaves a state different from the pre-call
store (a Sale header is visible), refuting exactly-as-before. -/
theorem C3_counterexample :
    processSaleCrash riceStore [⟨1, "Rice 1kg", 3, 50, 40⟩] 1 ≠ riceStore := by
  decide

/-- C3 witness: the amended theorem applied to the spec's 3-unit sale
scenario. -/
theorem C3_witness :
    (processSaleCrash riceStore [⟨1, "Rice 1kg", 3, 50, 40⟩] 1).sales =
      riceStore.sales ++ [⟨1, cartTotal [⟨1, "Rice 1kg", 3, 50, 40⟩],
        cartTotal [⟨1, "Rice 1kg", 3, 50, 40⟩] -
          cartCostTotal [⟨1, "Rice 1kg", 3, 50, 40⟩]⟩] ∧
    (processSaleCrash riceStore [⟨1, "Rice 1kg", 3, 50, 40⟩] 1).products =
      riceStore.products ∧
    (processSaleCrash riceStore [⟨1, "Rice 1kg", 3, 50, 40⟩] 1).sale_items =
      riceStore.sale_items :=
  C3_no_rollback riceStore [⟨1, "Rice 1kg", 3, 50, 40⟩] (by decide) rfl

/-- C4 (amended): validation and the stock decrement depend only on the
product ids and quantities of the cart lines, so two carts that agree on
those fields produce the same error (if any) and the same final products
table; but the totals, the stored sale and the stored sale items are
computed from the client-supplied price and cost fields, so they differ
when those fields differ (see the counterexample), contrary to the
claimed snapshot pricing. -/
theorem C4_totals_from_client (s : Store) (c1 c2 : List CartItem)
    (hsk : c1.map (fun it => (it.product_id, it.quantity)) =
           c2.map (fun it => (it.product_id, it.quantity))) :
    errPart (processSale s c1).1 = errPart (processSale s c2).1 ∧
    (processSale s c1).2.products = (processSale s c2).2.products := by
  by_cases hie : c1 = []
  · subst hie
    have h2 : c2 = [] := by
      cases c2 with
      | nil => rfl
      | cons b bs => simp at hsk
    subst h2
    exact ⟨rfl, rfl⟩
  · have hne2 : c2 ≠ [] := by
      cases c2 with
      | nil =>
        cases c1 with
        | nil => exact absurd rfl hie
        | cons a as => simp at hsk
      | cons b bs => simp
    have hchk := checkItems_congr s c1 c2 hsk
    cases hc : checkItems s c1 with
    | error e =>
      rw [processSale_of_error s c1 e hie hc,
          processSale_of_error s c2 e hne2 (hchk.symm.trans hc)]
      exact ⟨rfl, rfl⟩
    | ok u =>
      cases u
      rw [processSale_of_valid s c1 hie hc,
          processSale_of_valid s c2 hne2 (hchk.symm.trans hc)]
      refine ⟨rfl, ?_⟩
      rw [commitAll_products, commitAll_products]
      show s.products.map _ = s.products.map _
      refine List.map_congr_left ?_
      intro p _
      rw [cartQty_congr c1 c2 p.id hsk]

/-- C4 counterexample: two carts identical except for the client-supplied
price and cost fields commit with different totals and profits, so the
processor does not recompute totals from the store's own price/cost
snapshot as the claim states. -/
theorem C4_counterexample :
    (processSale riceStore [⟨1, "Rice 1kg", 3, 50, 40⟩]).1 =
      Except.ok ⟨1, 150, 30⟩ ∧
    (processSale riceStore [⟨1, "Rice 1kg", 3, 500, 400⟩]).1 =
      Except.ok ⟨1, 1500, 300⟩ ∧
    (150 : Int) ≠ 1500 :=
  ⟨rfl, rfl, by decide⟩

/-- C4 witness: the amended theorem applied to the two carts of the
counterexample: same outcome kind and same final products table. -/
theorem C4_witness :
    errPart (processSale riceStore [⟨1, "Rice 1kg", 3, 50, 40⟩]).1 =
      errPart (processSale riceStore [⟨1, "Rice 1kg", 3, 500, 400⟩]).1 ∧
    (processSale riceStore [⟨1, "Rice 1kg", 3, 50, 40⟩]).2.products =
      (processSale riceStore [⟨1, "Rice 1kg", 3, 500, 400⟩]).2.products :=
  C4_totals_from_client riceStore [⟨1, "Rice 1kg", 3, 50, 40⟩]
    [⟨1, "Rice 1kg", 3, 500, 400⟩] rfl

/-- C5: for every successful commit (from a store whose stored sale item
ids do not already use the id about to be allocated, as AUTOINCREMENT
guarantees), the stored sale's total equals the sum of price × quantity
over that sale's stored sale items and its profit equals the sum of
(price − cost) × quantity over them, exactly. -/
theorem C5_totals_reconcile (s : Store) (items : List CartItem) (r : SaleOk)
    (s2 : Store) (hfresh : freshSaleId s)
    (h : processSale s items = (Except.ok r, s2)) :
    s2.sales = s.sales ++ [⟨r.sale_id, r.total, r.profit⟩] ∧
    r.total = itemsTotal (itemsOfSale s2 r.sale_id) ∧
    r.profit = itemsProfit (itemsOfSale s2 r.sale_id) := by
  obtain ⟨hne, hok, hr, hs2⟩ := processSale_ok_inv s items r s2 h
  subst hr
  subst hs2
  refine ⟨?_, ?_, ?_⟩
  · rw [commitAll_sales]
  · show cartTotal items = itemsTotal (itemsOfSale _ _)
    rw [itemsOfSale_after_commit s items hfresh, itemsTotal_map_mk]
  · show cartTotal items - cartCostTotal items = itemsProfit (itemsOfSale _ _)
    rw [itemsOfSale_after_commit s items hfresh, itemsProfit_map_mk]

/-- C5 witness: the reconciliation applied to the spec's 3-unit sale
scenario: total 150 and profit 30 match the stored line items. -/
theorem C5_witness :
    (processSale riceStore [⟨1, "Rice 1kg", 3, 50, 40⟩]).2.sales =
      riceStore.sales ++ [⟨1, 150, 30⟩] ∧
    (150 : Int) = itemsTotal (itemsOfSale
      (processSale riceStore [⟨1, "Rice 1kg", 3, 50, 40⟩]).2 1) ∧
    (30 : Int) = itemsProfit (itemsOfSale
      (processSale riceStore [⟨1, "Rice 1kg", 3, 50, 40⟩]).2 1) :=
  C5_totals_reconcile riceStore [⟨1, "Rice 1kg", 3, 50, 40⟩]
    (⟨1, 150, 30⟩ : SaleOk)
    (processSale riceStore [⟨1, "Rice 1kg", 3, 50, 40⟩]).2
    (by simp [freshSaleId, riceStore]) rfl

/-- C6 (amended): the claimed outcome only holds when the two requests
are serialized: run strictly one after the other, the first sale of the
last unit commits and the second observes the post-decrement stock 0 and
fails with InsufficientStock, leaving stock 0.  Nothing in the handler
enforces this serialization, and under the interleaving in which both
validation phases read before either commit both requests succeed and
stock goes to −1 (see the counterexample). -/
theorem C6_serialized_exactly_one (s : Store) (pid : Nat) (p : Product)
    (nm : String) (pr c : Int)
    (hp : getProduct s pid = some p) (hstock : p.stock = 1) :
    isOkResult (twoSalesSerial s [⟨pid, nm, 1, pr, c⟩]
      [⟨pid, nm, 1, pr, c⟩]).1 = true ∧
    (twoSalesSerial s [⟨pid, nm, 1, pr, c⟩] [⟨pid, nm, 1, pr, c⟩]).2.1 =
      Except.error (SaleError.insufficientStock pid) ∧
    getProduct (twoSalesSerial s [⟨pid, nm, 1, pr, c⟩]
      [⟨pid, nm, 1, pr, c⟩]).2.2 pid = some { p with stock := 0 } := by
  have hnl : ¬ p.stock < (1 : Int) := by
    rw [hstock]
    exact lt_irrefl 1
  have hchk1 : checkItems s [⟨pid, nm, 1, pr, c⟩] = Except.ok () := by
    simp [checkItems, hp, hnl]
  have hne : ([⟨pid, nm, 1, pr, c⟩] : List CartItem) ≠ [] := by simp
  have hps1 := processSale_of_valid s [⟨pid, nm, 1, pr, c⟩] hne hchk1
  have hprod2 :=
    getProduct_processSale_single s ⟨pid, nm, 1, pr, c⟩ p hp hchk1
  have hzero : ({ p with stock := p.stock - 1 } : Product) =
      { p with stock := 0 } := by
    rw [hstock]
    norm_num
  rw [hzero] at hprod2
  have hchk2 : checkItems (processSale s [⟨pid, nm, 1, pr, c⟩]).2
      [⟨pid, nm, 1, pr, c⟩] =
      Except.error (SaleError.insufficientStock pid) := by
    simp [checkItems, hprod2]
  have hps2 := processSale_of_error (processSale s [⟨pid, nm, 1, pr, c⟩]).2
    [⟨pid, nm, 1, pr, c⟩] (SaleError.insufficientStock pid) hne hchk2
  refine ⟨?_, ?_, ?_⟩
  · show isOkResult (processSale s [⟨pid, nm, 1, pr, c⟩]).1 = true
    rw [hps1]
    rfl
  · show (processSale (processSale s [⟨pid, nm, 1, pr, c⟩]).2
      [⟨pid, nm, 1, pr, c⟩]).1 = _
    rw [hps2]
  · show getProduct (processSale (processSale s [⟨pid, nm, 1, pr, c⟩]).2
      [⟨pid, nm, 1, pr, c⟩]).2 pid = _
    rw [hps2]
    exact hprod2

/-- C6 counterexample: under the interleaving in which both requests
validate against the initial state before either commits — an execution
the unlocked, untransacted handler permits — both sales of the last unit
succeed and the final stock is −1, not 0, and not exactly one success. -/
theorem C6_counterexample :
    isOkResult (twoSalesInterleaved lastUnitStore
      [⟨1, "Milk 1L", 1, 60, 45⟩] [⟨1, "Milk 1L", 1, 60, 45⟩]).1 = true ∧
    isOkResult (twoSalesInterleaved lastUnitStore
      [⟨1, "Milk 1L", 1, 60, 45⟩] [⟨1, "Milk 1L", 1, 60, 45⟩]).2.1 = true ∧
    (twoSalesInterleaved lastUnitStore
      [⟨1, "Milk 1L", 1, 60, 45⟩] [⟨1, "Milk 1L", 1, 60, 45⟩]).2.2.products =
      [⟨1, "Milk 1L", "Dairy", 45, 60, -1, 10⟩] :=
  ⟨rfl, rfl, rfl⟩

/-- C6 witness: the serialized behavior applied to the last-unit store. -/
theorem C6_witness :
    isOkResult (twoSalesSerial lastUnitStore
      [⟨1, "Milk 1L", 1, 60, 45⟩] [⟨1, "Milk 1L", 1, 60, 45⟩]).1 = true ∧
    (twoSalesSerial lastUnitStore
      [⟨1, "Milk 1L", 1, 60, 45⟩] [⟨1, "Milk 1L", 1, 60, 45⟩]).2.1 =
      Except.error (SaleError.insufficientStock 1) ∧
    getProduct (twoSalesSerial lastUnitStore
      [⟨1, "Milk 1L", 1, 60, 45⟩] [⟨1, "Milk 1L", 1, 60, 45⟩]).2.2 1 =
      some ⟨1, "Milk 1L", "Dairy", 45, 60, 0, 10⟩ :=
  C6_serialized_exactly_one lastUnitStore 1
    ⟨1, "Milk 1L", "Dairy", 45, 60, 1, 10⟩ "Milk 1L" 60 45 rfl rfl

/-- C9 (amended): a non-empty cart referencing a missing product fails
with ProductNotFound naming a missing product id and commits nothing,
provided every line whose product exists passes its stock check; when an
earlier line fails its stock check the request still fails with a client
error and commits nothing, but the error is that line's InsufficientStock
rather than ProductNotFound (see the counterexample). -/
theorem C9_missing_product (s : Store) (items : List CartItem)
    (hmiss : ∃ it ∈ items, getProduct s it.product_id = none)
    (hst : ∀ it ∈ items, ∀ row, getProduct s it.product_id = some row →
      ¬ row.stock < it.quantity) :
    ∃ pid, getProduct s pid = none ∧
      processSale s items =
        (Except.error (SaleError.productNotFound pid), s) := by
  have hne : items ≠ [] := by
    obtain ⟨it0, hit0, -⟩ := hmiss
    exact List.ne_nil_of_mem hit0
  obtain ⟨pid, hpid, hchk⟩ := checkItems_notFound s items hmiss hst
  exact ⟨pid, hpid, processSale_of_error s items _ hne hchk⟩

/-- C9 counterexample: a cart listing an out-of-stock existing product
before an unknown product id fails with InsufficientStock(1), not with
ProductNotFound(999), although the cart contains a line whose product
does not exist. -/
theorem C9_counterexample :
    getProduct zeroStockStore 999 = none ∧
    processSale zeroStockStore
      [⟨1, "Rice 1kg", 1, 50, 40⟩, ⟨999, "Ghost", 1, 5, 4⟩] =
      (Except.error (SaleError.insufficientStock 1), zeroStockStore) :=
  ⟨rfl, rfl⟩

/-- C9 witness: the spec scenario — a cart whose only line references the
unknown product 999 fails with ProductNotFound(999) and commits nothing. -/
theorem C9_witness :
    ∃ pid, getProduct riceStore pid = none ∧
      processSale riceStore [⟨999, "Ghost", 1, 5, 4⟩] =
        (Except.error (SaleError.productNotFound pid), riceStore) :=
  C9_missing_product riceStore [⟨999, "Ghost", 1, 5, 4⟩]
    ⟨⟨999, "Ghost", 1, 5, 4⟩, by simp, rfl⟩
    (by
      intro it hit row hrow
      rcases List.mem_singleton.mp hit with rfl
      exact absurd hrow (by simp [getProduct, riceStore]))
